import Mathlib

/-!
Shallow embedding of the med-risk-predictor pipeline, faithful to the
Python sources:

* `src/models/risk_classifier.py`  — `RiskClassifier.classify_risk`,
  `RiskClassifier.classify_batch`
* `src/preprocessing/cleaning.py`  — `DataCleaner.clean` and its stages
* `src/utils/helpers.py`           — `validate_dataframe`, `format_date`,
  `clean_numeric_column`
* `src/models/predict.py`          — `ConsumptionPredictor.predict_future`
* `src/models/train.py`            — `MedicationPredictor.save_model` /
  `load_model`

Numeric cells are modelled as exact rationals (`ℚ`); Python's binary
floating point is abstracted to exact arithmetic, and Python `round(x, n)`
(round-half-to-even) is modelled by `rhe` below.
-/

namespace MedRisk

/-! ## Python `round` (half-to-even) on rationals -/

/-- Round a rational to the nearest integer, ties to even
(CPython's `round`). -/
def rhe (x : ℚ) : ℤ :=
  if x - ⌊x⌋ < 1/2 then ⌊x⌋
  else if 1/2 < x - ⌊x⌋ then ⌊x⌋ + 1
  else if Even ⌊x⌋ then ⌊x⌋ else ⌊x⌋ + 1

/-- Python `round(x, 2)`. -/
def pyRound2 (x : ℚ) : ℚ := (rhe (100 * x) : ℚ) / 100

/-- Python `round(x, 0)`. -/
def pyRound0 (x : ℚ) : ℚ := (rhe x : ℚ)

theorem rhe_int_cases (x : ℚ) : rhe x = ⌊x⌋ ∨ rhe x = ⌊x⌋ + 1 := by
  unfold rhe
  split
  · exact Or.inl rfl
  · split
    · exact Or.inr rfl
    · split
      · exact Or.inl rfl
      · exact Or.inr rfl

theorem rhe_mono {x y : ℚ} (h : x ≤ y) : rhe x ≤ rhe y := by
  have hf : ⌊x⌋ ≤ ⌊y⌋ := Int.floor_le_floor h
  rcases lt_or_eq_of_le hf with hlt | heq
  · -- different floors: rhe x ≤ ⌊x⌋ + 1 ≤ ⌊y⌋ ≤ rhe y
    have h1 : rhe x ≤ ⌊x⌋ + 1 := by
      rcases rhe_int_cases x with h' | h' <;> omega
    have h2 : ⌊y⌋ ≤ rhe y := by
      rcases rhe_int_cases y with h' | h' <;> omega
    omega
  · -- same floor: compare fractional parts
    have hr : x - ⌊x⌋ ≤ y - ⌊y⌋ := by
      have : ((⌊x⌋ : ℚ)) = ((⌊y⌋ : ℚ)) := by rw [heq]
      linarith
    by_cases hx1 : x - ⌊x⌋ < 1/2
    · have hx : rhe x = ⌊x⌋ := by unfold rhe; rw [if_pos hx1]
      rcases rhe_int_cases y with h' | h' <;> omega
    · by_cases hx2 : 1/2 < x - ⌊x⌋
      · have hy2 : 1/2 < y - ⌊y⌋ := lt_of_lt_of_le hx2 hr
        have hy1 : ¬ (y - ⌊y⌋ < 1/2) := by linarith
        have hx : rhe x = ⌊x⌋ + 1 := by
          unfold rhe; rw [if_neg hx1, if_pos hx2]
        have hy : rhe y = ⌊y⌋ + 1 := by
          unfold rhe; rw [if_neg hy1, if_pos hy2]
        omega
      · have hxhalf : x - ⌊x⌋ = 1/2 := le_antisymm (not_lt.mp hx2) (not_lt.mp hx1)
        by_cases hev : Even ⌊x⌋
        · have hx : rhe x = ⌊x⌋ := by
            unfold rhe; rw [if_neg hx1, if_neg hx2, if_pos hev]
          rcases rhe_int_cases y with h' | h' <;> omega
        · have hx : rhe x = ⌊x⌋ + 1 := by
            unfold rhe; rw [if_neg hx1, if_neg hx2, if_neg hev]
          have hyhalf : 1/2 ≤ y - ⌊y⌋ := hxhalf ▸ hr
          by_cases hygt : 1/2 < y - ⌊y⌋
          · have hy : rhe y = ⌊y⌋ + 1 := by
              unfold rhe; rw [if_neg (by linarith), if_pos hygt]
            omega
          · have hyeq : ¬ (y - ⌊y⌋ < 1/2) := by linarith
            have hyodd : ¬ Even ⌊y⌋ := heq ▸ hev
            have hy : rhe y = ⌊y⌋ + 1 := by
              unfold rhe; rw [if_neg hyeq, if_neg hygt, if_neg hyodd]
            omega

theorem pyRound2_mono {x y : ℚ} (h : x ≤ y) : pyRound2 x ≤ pyRound2 y := by
  unfold pyRound2
  have h1 : rhe (100 * x) ≤ rhe (100 * y) := rhe_mono (by linarith)
  have h2 : ((rhe (100 * x) : ℚ)) ≤ ((rhe (100 * y) : ℚ)) := by exact_mod_cast h1
  linarith

theorem rhe_intCast (n : ℤ) : rhe (n : ℚ) = n := by
  unfold rhe
  simp [Int.floor_intCast]

theorem pyRound2_one : pyRound2 1 = 1 := by
  have h : (100 : ℚ) * 1 = ((100 : ℤ) : ℚ) := by norm_num
  rw [pyRound2, h, rhe_intCast]
  norm_num

theorem pyRound2_six_fifths : pyRound2 (6/5) = 6/5 := by
  have h : (100 : ℚ) * (6/5) = ((120 : ℤ) : ℚ) := by norm_num
  rw [pyRound2, h, rhe_intCast]
  norm_num

/-! ## Risk classifier (`src/models/risk_classifier.py`) -/

/-- Embedding of `RiskClassifier.classify_risk(estoque, previsao)`; the
source's local `razao = estoque / previsao` is inlined. -/
def classify_risk (estoque previsao : ℚ) : String :=
  if previsao = 0 then "Baixo"
  else if estoque / previsao < 1 then "Alto"
  else if estoque / previsao < 6/5 then "Médio"
  else "Baixo"

/-- Embedding of `get_risk_color` from `src/utils/helpers.py`. -/
def get_risk_color (risk_level : String) : String :=
  if risk_level = "Alto" then "#FF4B4B"
  else if risk_level = "Médio" then "#FFA500"
  else if risk_level = "Baixo" then "#00CC66"
  else "#CCCCCC"

/-- Embedding of `get_risk_emoji` from `src/utils/helpers.py`. -/
def get_risk_emoji (risk_level : String) : String :=
  if risk_level = "Alto" then "🔴"
  else if risk_level = "Médio" then "🟡"
  else if risk_level = "Baixo" then "🟢"
  else "⚪"

/-- Risk-severity rank taken from the spec's ordering High > Medium > Low,
on the code's Portuguese level names. -/
def severity (nivel : String) : ℕ :=
  if nivel = "Alto" then 2 else if nivel = "Médio" then 1 else 0

/-- Value of one dataframe cell in the risk table: a rational number or a
string. -/
inductive PCell where
  | q (v : ℚ)
  | s (t : String)
deriving DecidableEq, Repr

/-- Row of the dataframe handed to `classify_batch`: the two numeric
columns the classifier reads, plus all remaining columns as an
association list (pandas columns are unique, assignment overwrites). -/
structure BRow where
  estoque_atual : ℚ
  consumo_previsto : ℚ
  extra : List (String × PCell)
deriving DecidableEq, Repr

/-- Pandas column assignment `df[n] = v` on one row: replaces the column
in place when present, appends otherwise. -/
def setCol : List (String × PCell) → String → PCell → List (String × PCell)
  | [], n, v => [(n, v)]
  | (m, w) :: rest, n, v =>
    if m = n then (n, v) :: rest else (m, w) :: setCol rest n v

/-- First binding of a column name in an association list. -/
def findCol : List (String × PCell) → String → Option PCell
  | [], _ => none
  | (m, w) :: rest, n => if m = n then some w else findCol rest n

/-- Read a column off a row. -/
def getCol (r : BRow) (n : String) : Option PCell := findCol r.extra n

/-- One row of `RiskClassifier.classify_batch`: the five derived columns,
assigned in source order (`nivel_risco`, `cor_risco`, `emoji_risco`,
`razao_estoque`, `deficit`). -/
def classifyBatchRow (r : BRow) : BRow :=
  { r with
    extra :=
      setCol (setCol (setCol (setCol (setCol r.extra
        "nivel_risco" (.s (classify_risk r.estoque_atual r.consumo_previsto)))
        "cor_risco" (.s (get_risk_color (classify_risk r.estoque_atual r.consumo_previsto))))
        "emoji_risco" (.s (get_risk_emoji (classify_risk r.estoque_atual r.consumo_previsto))))
        "razao_estoque" (.q (if r.consumo_previsto > 0 then
          pyRound2 (r.estoque_atual / r.consumo_previsto) else 0)))
        "deficit" (.q (max 0 (r.consumo_previsto - r.estoque_atual))) }

/-- Embedding of `RiskClassifier.classify_batch` (`df.apply` row-wise over
a copy of the frame). -/
def classify_batch (df : List BRow) : List BRow := df.map classifyBatchRow

theorem findCol_setCol_self (l : List (String × PCell)) (n : String) (v : PCell) :
    findCol (setCol l n v) n = some v := by
  induction l with
  | nil => simp [setCol, findCol]
  | cons p rest ih =>
    rcases p with ⟨m, w⟩
    by_cases h : m = n
    · simp [setCol, h, findCol]
    · simp [setCol, h, findCol, ih]

theorem findCol_setCol_other (l : List (String × PCell)) (n m : String)
    (v : PCell) (h : m ≠ n) : findCol (setCol l n v) m = findCol l m := by
  have hnm : ¬ n = m := fun h' => h h'.symm
  induction l with
  | nil => simp [setCol, findCol, hnm]
  | cons p rest ih =>
    rcases p with ⟨k, w⟩
    by_cases hk : k = n
    · subst hk
      simp [setCol, findCol, hnm]
    · simp [setCol, hk, findCol, ih]

theorem getCol_classifyBatchRow_nivel (r : BRow) :
    getCol (classifyBatchRow r) "nivel_risco" =
      some (.s (classify_risk r.estoque_atual r.consumo_previsto)) := by
  unfold classifyBatchRow getCol
  rw [findCol_setCol_other _ _ _ _ (by decide), findCol_setCol_other _ _ _ _ (by decide),
    findCol_setCol_other _ _ _ _ (by decide), findCol_setCol_other _ _ _ _ (by decide),
    findCol_setCol_self]

theorem getCol_classifyBatchRow_razao (r : BRow) :
    getCol (classifyBatchRow r) "razao_estoque" =
      some (.q (if r.consumo_previsto > 0 then
        pyRound2 (r.estoque_atual / r.consumo_previsto) else 0)) := by
  unfold classifyBatchRow getCol
  rw [findCol_setCol_other _ _ _ _ (by decide), findCol_setCol_self]

theorem getCol_classifyBatchRow_deficit (r : BRow) :
    getCol (classifyBatchRow r) "deficit" =
      some (.q (max 0 (r.consumo_previsto - r.estoque_atual))) := by
  unfold classifyBatchRow getCol
  rw [findCol_setCol_self]

theorem getCol_classifyBatchRow_other (r : BRow) (n : String)
    (h1 : n ≠ "nivel_risco") (h2 : n ≠ "cor_risco") (h3 : n ≠ "emoji_risco")
    (h4 : n ≠ "razao_estoque") (h5 : n ≠ "deficit") :
    getCol (classifyBatchRow r) n = getCol r n := by
  unfold classifyBatchRow getCol
  rw [findCol_setCol_other _ _ _ _ h5, findCol_setCol_other _ _ _ _ h4,
    findCol_setCol_other _ _ _ _ h3, findCol_setCol_other _ _ _ _ h2,
    findCol_setCol_other _ _ _ _ h1]

theorem classifyBatchRow_estoque (r : BRow) :
    (classifyBatchRow r).estoque_atual = r.estoque_atual := rfl

theorem classifyBatchRow_previsto (r : BRow) :
    (classifyBatchRow r).consumo_previsto = r.consumo_previsto := rfl

theorem classify_risk_cases (estoque previsao : ℚ) (h : previsao ≠ 0) :
    (classify_risk estoque previsao = "Alto" ↔ estoque / previsao < 1) ∧
    (classify_risk estoque previsao = "Médio" ↔
      1 ≤ estoque / previsao ∧ estoque / previsao < 6/5) ∧
    (classify_risk estoque previsao = "Baixo" ↔ 6/5 ≤ estoque / previsao) := by
  have hMA : ¬ ("Médio" : String) = "Alto" := by decide
  have hBA : ¬ ("Baixo" : String) = "Alto" := by decide
  have hAM : ¬ ("Alto" : String) = "Médio" := by decide
  have hBM : ¬ ("Baixo" : String) = "Médio" := by decide
  have hAB : ¬ ("Alto" : String) = "Baixo" := by decide
  have hMB : ¬ ("Médio" : String) = "Baixo" := by decide
  unfold classify_risk
  rw [if_neg h]
  split_ifs with h1 h2
  · exact ⟨iff_of_true rfl h1,
      iff_of_false hAM (by rintro ⟨ha, _⟩; linarith),
      iff_of_false hAB (by intro ha; linarith)⟩
  · exact ⟨iff_of_false hMA h1,
      iff_of_true rfl ⟨not_lt.mp h1, h2⟩,
      iff_of_false hMB (by intro ha; linarith)⟩
  · exact ⟨iff_of_false hBA h1,
      iff_of_false hBM (by rintro ⟨_, hb⟩; exact h2 hb),
      iff_of_true rfl (not_lt.mp h2)⟩

theorem classify_risk_zero (estoque : ℚ) : classify_risk estoque 0 = "Baixo" := by
  unfold classify_risk
  rw [if_pos rfl]

theorem severity_mono_core (e1 p1 e2 p2 : ℚ) (hp1 : 0 < p1) (hp2 : 0 < p2)
    (hlt : pyRound2 (e2 / p2) < pyRound2 (e1 / p1)) :
    severity (classify_risk e1 p1) ≤ severity (classify_risk e2 p2) := by
  obtain ⟨hA1, hM1, hB1⟩ := classify_risk_cases e1 p1 (ne_of_gt hp1)
  obtain ⟨hA2, hM2, hB2⟩ := classify_risk_cases e2 p2 (ne_of_gt hp2)
  by_cases ha1 : e1 / p1 < 1
  · -- row 1 is Alto: its rounded ratio is ≤ 1, so row 2's is < 1 and row 2 is Alto too
    have hr1 : pyRound2 (e1 / p1) ≤ 1 := by
      have := pyRound2_mono (le_of_lt ha1)
      rwa [pyRound2_one] at this
    have ha2 : e2 / p2 < 1 := by
      by_contra hge
      push_neg at hge
      have := pyRound2_mono hge
      rw [pyRound2_one] at this
      linarith
    rw [hA1.mpr ha1, hA2.mpr ha2]
  · push_neg at ha1
    by_cases hm1 : e1 / p1 < 6/5
    · -- row 1 is Médio: its rounded ratio is ≤ 6/5, so row 2's is < 6/5
      have hr1 : pyRound2 (e1 / p1) ≤ 6/5 := by
        have := pyRound2_mono (le_of_lt hm1)
        rwa [pyRound2_six_fifths] at this
      have hm2 : e2 / p2 < 6/5 := by
        by_contra hge
        push_neg at hge
        have := pyRound2_mono hge
        rw [pyRound2_six_fifths] at this
        linarith
      rw [hM1.mpr ⟨ha1, hm1⟩]
      by_cases ha2 : e2 / p2 < 1
      · rw [hA2.mpr ha2]
        simp [severity]
      · rw [hM2.mpr ⟨not_lt.mp ha2, hm2⟩]
    · -- row 1 is Baixo: severity 0
      rw [hB1.mpr (not_lt.mp hm1)]
      simp [severity]

/-- C1: `classify_risk` is a pure function of its two arguments with
thresholds 1.0 and 1.2 on the stock/forecast ratio; zero forecast yields
Low; 1200 against 1000 is exactly Low and 1100 against 1000 Medium. -/
theorem classify_risk_threshold_spec (estoque previsao : ℚ)
    (he : 0 ≤ estoque) (hp : 0 ≤ previsao) :
    (previsao = 0 → classify_risk estoque previsao = "Baixo") ∧
    (previsao ≠ 0 →
      (classify_risk estoque previsao = "Alto" ↔ estoque / previsao < 1) ∧
      (classify_risk estoque previsao = "Médio" ↔
        1 ≤ estoque / previsao ∧ estoque / previsao < 6/5) ∧
      (classify_risk estoque previsao = "Baixo" ↔ 6/5 ≤ estoque / previsao)) ∧
    classify_risk 1200 1000 = "Baixo" ∧
    classify_risk 1100 1000 = "Médio" := by
  refine ⟨fun h => h ▸ classify_risk_zero estoque, classify_risk_cases estoque previsao,
    ?_, ?_⟩
  · exact (classify_risk_cases 1200 1000 (by norm_num)).2.2.mpr (by norm_num)
  · exact (classify_risk_cases 1100 1000 (by norm_num)).2.1.mpr (by norm_num)

theorem classify_risk_threshold_spec_witness :
    (0:ℚ) ≤ 1200 ∧ (0:ℚ) ≤ 1000 ∧ classify_risk 1200 1000 = "Baixo" :=
  ⟨by norm_num, by norm_num,
    (classify_risk_threshold_spec 1200 1000 (by norm_num) (by norm_num)).2.2.1⟩

/-- C7: every row produced by `classify_batch` carries
`deficit = max(0, consumo_previsto - estoque_atual)`, which is
non-negative. -/
theorem classify_batch_deficit (df : List BRow) (r : BRow)
    (h : r ∈ classify_batch df) :
    getCol r "deficit" = some (.q (max 0 (r.consumo_previsto - r.estoque_atual))) ∧
    ∀ v, getCol r "deficit" = some (.q v) → 0 ≤ v := by
  obtain ⟨x, _, hx⟩ := List.mem_map.mp h
  subst hx
  refine ⟨getCol_classifyBatchRow_deficit x, ?_⟩
  intro v hv
  rw [getCol_classifyBatchRow_deficit x] at hv
  have : v = max 0 (x.consumo_previsto - x.estoque_atual) := by
    injection hv with hv'
    injection hv' with hv''
    exact hv''.symm
  rw [this]
  exact le_max_left _ _

theorem classify_batch_deficit_witness :
    getCol (classifyBatchRow ⟨3, 10, []⟩) "deficit" =
      some (.q (max 0 ((classifyBatchRow ⟨3, 10, []⟩).consumo_previsto -
        (classifyBatchRow ⟨3, 10, []⟩).estoque_atual))) :=
  (classify_batch_deficit [⟨3, 10, []⟩] (classifyBatchRow ⟨3, 10, []⟩)
    (by simp [classify_batch])).1

/-- C8 (amended): among rows produced by `classify_batch` whose forecast
is positive, a strictly greater emitted `razao_estoque` never comes with
a strictly more severe `nivel_risco`; rows with zero forecast (ratio
recorded 0, level Low) are excluded, as they break the monotonicity. -/
theorem classify_batch_razao_monotone (df : List BRow) (r1 r2 : BRow)
    (h1 : r1 ∈ classify_batch df) (h2 : r2 ∈ classify_batch df)
    (hp1 : 0 < r1.consumo_previsto) (hp2 : 0 < r2.consumo_previsto)
    (a b : ℚ)
    (hga : getCol r1 "razao_estoque" = some (.q a))
    (hgb : getCol r2 "razao_estoque" = some (.q b))
    (hba : b < a)
    (n1 n2 : String)
    (hn1 : getCol r1 "nivel_risco" = some (.s n1))
    (hn2 : getCol r2 "nivel_risco" = some (.s n2)) :
    severity n1 ≤ severity n2 := by
  obtain ⟨x1, _, hx1⟩ := List.mem_map.mp h1
  obtain ⟨x2, _, hx2⟩ := List.mem_map.mp h2
  subst hx1
  subst hx2
  rw [classifyBatchRow_previsto] at hp1 hp2
  rw [getCol_classifyBatchRow_razao, if_pos hp1] at hga
  rw [getCol_classifyBatchRow_razao, if_pos hp2] at hgb
  rw [getCol_classifyBatchRow_nivel] at hn1 hn2
  have ha : a = pyRound2 (x1.estoque_atual / x1.consumo_previsto) := by
    injection hga with h'
    injection h' with h''
    exact h''.symm
  have hb : b = pyRound2 (x2.estoque_atual / x2.consumo_previsto) := by
    injection hgb with h'
    injection h' with h''
    exact h''.symm
  have he1 : n1 = classify_risk x1.estoque_atual x1.consumo_previsto := by
    injection hn1 with h'
    injection h' with h''
    exact h''.symm
  have he2 : n2 = classify_risk x2.estoque_atual x2.consumo_previsto := by
    injection hn2 with h'
    injection h' with h''
    exact h''.symm
  rw [he1, he2]
  exact severity_mono_core _ _ _ _ hp1 hp2 (hb ▸ ha ▸ hba)

theorem classify_batch_razao_monotone_witness :
    severity "Baixo" ≤ severity "Alto" := by
  refine classify_batch_razao_monotone
    [⟨30, 10, []⟩, ⟨5, 10, []⟩]
    (classifyBatchRow ⟨30, 10, []⟩) (classifyBatchRow ⟨5, 10, []⟩)
    (by simp [classify_batch]) (by simp [classify_batch])
    (by rw [classifyBatchRow_previsto]; norm_num)
    (by rw [classifyBatchRow_previsto]; norm_num)
    3 (1/2) ?_ ?_ (by norm_num) "Baixo" "Alto" ?_ ?_ <;>
      with_unfolding_all decide

/-- C8 counterexample: in a batch holding a positive-forecast row of
ratio 1/2 (High) and a zero-forecast row (recorded ratio 0, Low), the
row with the strictly greater emitted ratio has the strictly more severe
level, so risk is not monotone in the emitted `razao_estoque` field once
zero-forecast rows are included. -/
theorem classify_batch_razao_monotone_counterexample :
    (classify_batch [⟨5, 10, []⟩, ⟨0, 0, []⟩]).map
        (fun r => (getCol r "razao_estoque", getCol r "nivel_risco")) =
      [(some (.q (1/2)), some (.s "Alto")), (some (.q 0), some (.s "Baixo"))] ∧
    (0:ℚ) < 1/2 ∧ severity "Baixo" < severity "Alto" := by
  with_unfolding_all decide

/-- C10 (amended): `classify_batch` keeps row count and order, the two
numeric source columns, and every column whose name is none of the five
risk columns; the five risk columns themselves are assigned, overwriting
any pre-existing column of the same name. -/
theorem classify_batch_frame (df : List BRow) :
    List.Forall₂ (fun a b =>
      b.estoque_atual = a.estoque_atual ∧
      b.consumo_previsto = a.consumo_previsto ∧
      ∀ n, n ≠ "nivel_risco" → n ≠ "cor_risco" → n ≠ "emoji_risco" →
        n ≠ "razao_estoque" → n ≠ "deficit" → getCol b n = getCol a n)
      df (classify_batch df) := by
  unfold classify_batch
  induction df with
  | nil => exact List.Forall₂.nil
  | cons x xs ih =>
    exact List.Forall₂.cons
      ⟨rfl, rfl, fun n hn1 hn2 hn3 hn4 hn5 =>
        getCol_classifyBatchRow_other x n hn1 hn2 hn3 hn4 hn5⟩ ih

/-- C10 counterexample: a pre-existing `deficit` column holding 42 is
overwritten with the computed deficit 2, so `classify_batch` does not
leave the values of every pre-existing column unchanged. -/
theorem classify_batch_frame_counterexample :
    getCol (⟨5, 7, [("deficit", .q 42)]⟩ : BRow) "deficit" = some (.q 42) ∧
    (classify_batch [⟨5, 7, [("deficit", .q 42)]⟩]).map
        (fun r => getCol r "deficit") = [some (.q 2)] := by
  with_unfolding_all decide

/-! ## Data cleaner (`src/preprocessing/cleaning.py`, `src/utils/helpers.py`)

Cells of the raw consumption table are strings, numbers or missing
values (`NaN`). Python floats are modelled as exact rationals; a chain
`astype(str)` followed by `to_numeric` on a numeric cell is the identity
(CPython float repr round-trips), so it is embedded as such. -/

/-- Value of one raw dataframe cell. -/
inductive Cell where
  | s (t : String)
  | q (v : ℚ)
  | null
deriving DecidableEq, Repr

/-- Row of the raw consumption table with the four required columns. -/
structure CRow where
  medicamento : Cell
  data : Cell
  consumo : Cell
  estoque_atual : Cell
deriving DecidableEq, Repr

/-- Deduplication key used by `_remove_duplicates`: the raw
`(medicamento, data)` cell values. -/
def keyOf (r : CRow) : Cell × Cell := (r.medicamento, r.data)

/-- Python `str(cell)` as produced by `astype(str)`: strings unchanged,
`NaN` becomes `"nan"`; an integral float prints as `"<n>.0"` (non-integral
rationals fall back to Lean's `num/den` form, a modelling placeholder that
no claim exercises). -/
def cellPyStr (c : Cell) : String :=
  match c with
  | .s t => t
  | .q v => if v.den = 1 then toString v.num ++ ".0" else toString v
  | .null => "nan"

/-- Numeric value of a cleaned cell (`_remove_outliers` runs after
`_clean_columns`, where the numeric columns hold numbers). -/
def cellQ (c : Cell) : ℚ :=
  match c with
  | .q v => v
  | _ => 0

/-- Value of a digit string (all characters already checked to be
digits). -/
def digitsVal (l : List Char) : ℕ :=
  l.foldl (fun a c => 10 * a + (c.toNat - 48)) 0

/-- Python `_strptime` `%Y` field: exactly four digits. -/
def parseY4 (t : String) : Option ℕ :=
  if t.toList.length = 4 ∧ t.toList.all Char.isDigit then some (digitsVal t.toList)
  else none

/-- Python `_strptime` one-or-two-digit numeric field with inclusive
bounds (`%m` is 1..12, `%d` is 1..31; `"0"` and `"00"` match no
alternative of the regex, which the value bound rules out). -/
def parseBounded (lo hi : ℕ) (t : String) : Option ℕ :=
  if (t.toList.length = 1 ∨ t.toList.length = 2) ∧ t.toList.all Char.isDigit ∧
      lo ≤ digitsVal t.toList ∧ digitsVal t.toList ≤ hi then
    some (digitsVal t.toList)
  else none

/-- Gregorian leap year, as `calendar.isleap` / `datetime` use it. -/
def isLeap (y : ℕ) : Bool :=
  y % 4 = 0 && (y % 100 ≠ 0 || y % 400 = 0)

/-- Days in a month of the proleptic Gregorian calendar. -/
def daysInMonth (y m : ℕ) : ℕ :=
  if m = 2 then (if isLeap y then 29 else 28)
  else if m = 4 ∨ m = 6 ∨ m = 9 ∨ m = 11 then 30
  else 31

/-- `datetime.strptime(s, "%Y<sep>%m")` for a one-character separator:
year and month fields split by the separator, whole string consumed,
`datetime` then requires year ≥ 1. -/
def parseYmSep (sep : String) (s : String) : Option (ℕ × ℕ) :=
  match s.splitOn sep with
  | [ys, ms] =>
    match parseY4 ys, parseBounded 1 12 ms with
    | some y, some m => if 1 ≤ y then some (y, m) else none
    | _, _ => none
  | _ => none

/-- `datetime.strptime(s, "%Y%m")`: four year digits directly followed by
the month field; with full-string matching the input has 5 or 6 digits. -/
def parseYmCompact (s : String) : Option (ℕ × ℕ) :=
  let l := s.toList
  if l.all Char.isDigit ∧ (l.length = 5 ∨ l.length = 6) then
    let y := digitsVal (l.take 4)
    let m := digitsVal (l.drop 4)
    if 1 ≤ y ∧ 1 ≤ m ∧ m ≤ 12 then some (y, m) else none
  else none

/-- `datetime.strptime(s, "%d/%m/%Y")`: `datetime` validates the day
against the month's length. -/
def parseDmy (s : String) : Option (ℕ × ℕ) :=
  match s.splitOn "/" with
  | [ds, ms, ys] =>
    match parseBounded 1 31 ds, parseBounded 1 12 ms, parseY4 ys with
    | some d, some m, some y =>
      if 1 ≤ y ∧ d ≤ daysInMonth y m then some (y, m) else none
    | _, _, _ => none
  | _ => none

/-- `datetime.strptime(s, "%Y-%m-%d")`. -/
def parseYmd (s : String) : Option (ℕ × ℕ) :=
  match s.splitOn "-" with
  | [ys, ms, ds] =>
    match parseY4 ys, parseBounded 1 12 ms, parseBounded 1 31 ds with
    | some y, some m, some d =>
      if 1 ≤ y ∧ d ≤ daysInMonth y m then some (y, m) else none
    | _, _, _ => none
  | _ => none

/-- The five accepted formats of `format_date`, tried in source order. -/
def tryParseFormats (s : String) : Option (ℕ × ℕ) :=
  (parseYmSep "-" s).orElse (fun _ =>
    (parseYmSep "/" s).orElse (fun _ =>
      (parseYmCompact s).orElse (fun _ =>
        (parseDmy s).orElse (fun _ => parseYmd s))))

/-- `dt.strftime("%Y-%m")`: unpadded year (glibc), two-digit month. -/
def fmtYm (y m : ℕ) : String :=
  toString y ++ "-" ++ (if m < 10 then "0" ++ toString m else toString m)

/-- `format_date` on a string token: the first accepted format wins and is
re-rendered as `"%Y-%m"`; an unparseable token is returned unchanged. -/
def format_date_str (s : String) : String :=
  match tryParseFormats s with
  | some (y, m) => fmtYm y m
  | none => s

/-- `format_date` on a cell: non-strings are returned unchanged (the
`datetime`/`Timestamp` branch has no counterpart among raw CSV cells). -/
def format_date (c : Cell) : Cell :=
  match c with
  | .s t => .s (format_date_str t)
  | other => other

/-- The post-normalization filter `str.match(r"^\d\x7b4\x7d-\d\x7b2\x7d$", na=False)`:
seven characters, four digits, a dash, two digits; non-strings give
`NaN`, hence `False` under `na=False`. -/
def matchesYmShape (c : Cell) : Bool :=
  match c with
  | .s t =>
    let l := t.toList
    l.length = 7 && (l.take 4).all Char.isDigit &&
      l.drop 4 ≠ [] && l.getD 4 'x' = '-' && (l.drop 5).all Char.isDigit
  | _ => false

/-- Python `float(s)` on the plain decimal forms `to_numeric` meets here:
optional sign, integer digits, optional fractional part, at least one
digit (scientific-notation and `inf`/`nan` spellings are not modelled; no
cleaned input in the claims uses them). -/
def parseDecimal (s : String) : Option ℚ :=
  let withSign : ℚ × List Char :=
    match s.toList with
    | '+' :: r => (1, r)
    | '-' :: r => (-1, r)
    | r => (1, r)
  match (withSign.2).splitOn '.' with
  | [ip] =>
    if ip ≠ [] ∧ ip.all Char.isDigit then some (withSign.1 * digitsVal ip)
    else none
  | [ip, fp] =>
    if (ip ++ fp) ≠ [] ∧ ip.all Char.isDigit ∧ fp.all Char.isDigit then
      some (withSign.1 * ((digitsVal ip : ℚ) + (digitsVal fp : ℚ) / 10 ^ fp.length))
    else none
  | _ => none

/-- `clean_numeric_column` on one cell: `astype(str)`, comma to dot,
strip, `to_numeric(errors="coerce")`, `fillna(0)`. On a numeric cell the
string round trip is the identity; on `NaN`, `str` gives `"nan"` which
coerces back to `NaN` and is filled with 0. -/
def clean_numeric_cell (c : Cell) : ℚ :=
  match c with
  | .q v => v
  | .null => 0
  | .s t => (parseDecimal ((t.map (fun ch => if ch = ',' then '.' else ch)).trim)).getD 0

/-- `_remove_duplicates` core: `drop_duplicates(subset=["medicamento", "data"],
keep="first")`, tracking the keys already seen. -/
def dedupKeys : List CRow → List (Cell × Cell) → List CRow
  | [], _ => []
  | r :: rest, seen =>
    if keyOf r ∈ seen then dedupKeys rest seen
    else r :: dedupKeys rest (keyOf r :: seen)

/-- `_remove_duplicates`. -/
def remove_duplicates (rows : List CRow) : List CRow := dedupKeys rows []

/-- `fillna(0)` on one cell. -/
def fillZero (c : Cell) : Cell := if c = .null then .q 0 else c

/-- `_handle_missing_values`: drop rows with missing `medicamento` or
`data`, fill missing `consumo` / `estoque_atual` with 0. -/
def handle_missing_values (rows : List CRow) : List CRow :=
  (rows.filter (fun r => (r.medicamento != Cell.null) && (r.data != Cell.null))).map
    (fun r => { r with consumo := fillZero r.consumo,
                       estoque_atual := fillZero r.estoque_atual })

/-- `_clean_columns` on one row: normalize the medication name
(`astype(str).str.strip().str.upper()`), coerce the numeric columns and
clamp them at zero (`clip(lower=0)`). -/
def clean_columns_row (r : CRow) : CRow :=
  { r with
    medicamento := .s ((cellPyStr r.medicamento).trim.toUpper)
    consumo := .q (max 0 (clean_numeric_cell r.consumo))
    estoque_atual := .q (max 0 (clean_numeric_cell r.estoque_atual)) }

/-- `_normalize_dates`: apply `format_date`, then keep only rows whose
token has the `YYYY-MM` shape. -/
def normalize_dates (rows : List CRow) : List CRow :=
  (rows.map (fun r => { r with data := format_date r.data })).filter
    (fun r => matchesYmShape r.data)

/-- Column mean (`Series.mean`); the value is unused when the column is
empty. -/
def colMean (vals : List ℚ) : ℚ := vals.sum / vals.length

/-- Column sample variance, the square of `Series.std` (`ddof=1`); 0 when
fewer than two values, matching the `std > 0` guard being false there. -/
def colVar (vals : List ℚ) : ℚ :=
  if 2 ≤ vals.length then
    ((vals.map (fun v => (v - colMean vals) ^ 2)).sum) / ((vals.length : ℚ) - 1)
  else 0

/-- One pass of `_remove_outliers` for one column: when `std > 0` (iff the
variance is positive), keep rows with `value ≤ mean + 3 * std`. The
square-root-free test `value ≤ mean ∨ (value - mean)² ≤ 9·variance` is
equivalent since `std ≥ 0`. -/
def outlierFilter (get : CRow → ℚ) (rows : List CRow) : List CRow :=
  if 0 < colVar (rows.map get) then
    rows.filter (fun r =>
      decide (get r ≤ colMean (rows.map get) ∨
        (get r - colMean (rows.map get)) ^ 2 ≤ 9 * colVar (rows.map get)))
  else rows

/-- `_remove_outliers`: the `consumo` column first, then `estoque_atual`
on the already-filtered frame. -/
def remove_outliers (rows : List CRow) : List CRow :=
  outlierFilter (fun r => cellQ r.estoque_atual)
    (outlierFilter (fun r => cellQ r.consumo) rows)

/-- `_sort_data` comparison: `sort_values(["medicamento", "data"])`,
lexicographic on the two (by then string) columns; a multi-column pandas
sort is stable. -/
def leRow (a b : CRow) : Bool :=
  decide (cellPyStr a.medicamento < cellPyStr b.medicamento) ||
    (cellPyStr a.medicamento == cellPyStr b.medicamento &&
      decide (cellPyStr a.data ≤ cellPyStr b.data))

/-- `_sort_data`. -/
def sort_data (rows : List CRow) : List CRow := rows.mergeSort leRow

/-- The transformation stages of `DataCleaner.clean`, in source order
(after the structural validation). -/
def cleanSteps (rows : List CRow) : List CRow :=
  sort_data (remove_outliers (normalize_dates
    ((handle_missing_values (remove_duplicates rows)).map clean_columns_row)))

/-- `DataCleaner.clean` past its structural validation: an empty frame
returns empty immediately. -/
def clean (rows : List CRow) : List CRow :=
  if rows.isEmpty then [] else cleanSteps rows

/-- Exception value raised by the embedded cleaner (`raise ValueError(...)`
in `_validate_structure`; the repository defines no `SchemaError`). -/
inductive PyErr where
  | valueError (msg : String)
deriving DecidableEq, Repr

instance {ε α : Type} [DecidableEq ε] [DecidableEq α] : DecidableEq (Except ε α) := fun x y =>
  match x, y with
  | .ok a, .ok b =>
    if h : a = b then isTrue (by rw [h])
    else isFalse (by intro he; injection he; contradiction)
  | .error a, .error b =>
    if h : a = b then isTrue (by rw [h])
    else isFalse (by intro he; injection he; contradiction)
  | .ok _, .error _ => isFalse (by intro he; exact Except.noConfusion he)
  | .error _, .ok _ => isFalse (by intro he; exact Except.noConfusion he)

/-- `DataCleaner.required_columns`. -/
def requiredColumns : List String := ["medicamento", "data", "consumo", "estoque_atual"]

/-- `validate_dataframe(df, required_columns)` from `src/utils/helpers.py`:
false on an empty frame or when any required column is absent. -/
def validate_dataframe (cols : List String) (nonempty : Bool) : Bool :=
  nonempty && requiredColumns.all (fun c => cols.contains c)

/-- Message of the `ValueError` raised by `_validate_structure`: it lists
the full required-column list, not the missing ones. -/
def schemaMsg : String :=
  "DataFrame inválido. Colunas necessárias: ['medicamento', 'data', 'consumo', 'estoque_atual']"

/-- `DataCleaner.clean` including the empty-frame early return and
`_validate_structure` (which precedes every transformation); `cols` is the
frame's column list. -/
def cleanChecked (cols : List String) (rows : List CRow) : Except PyErr (List CRow) :=
  if rows.isEmpty then .ok []
  else if validate_dataframe cols (!rows.isEmpty) then .ok (cleanSteps rows)
  else .error (.valueError schemaMsg)

theorem dedupKeys_sublist : ∀ (rows : List CRow) (seen : List (Cell × Cell)),
    List.Sublist (dedupKeys rows seen) rows := by
  intro rows
  induction rows with
  | nil => intro seen; simp [dedupKeys]
  | cons r rest ih =>
    intro seen
    unfold dedupKeys
    by_cases h : keyOf r ∈ seen
    · rw [if_pos h]
      exact (ih seen).cons r
    · rw [if_neg h]
      exact (ih _).cons₂ r

theorem dedupKeys_not_seen : ∀ (rows : List CRow) (seen : List (Cell × Cell)) (r : CRow),
    r ∈ dedupKeys rows seen → keyOf r ∉ seen := by
  intro rows
  induction rows with
  | nil => intro seen r h; simp [dedupKeys] at h
  | cons x rest ih =>
    intro seen r h
    unfold dedupKeys at h
    by_cases hx : keyOf x ∈ seen
    · rw [if_pos hx] at h
      exact ih seen r h
    · rw [if_neg hx] at h
      rcases List.mem_cons.mp h with rfl | h'
      · exact hx
      · intro hr
        exact ih _ r h' (List.mem_cons_of_mem _ hr)

theorem dedupKeys_pairwise : ∀ (rows : List CRow) (seen : List (Cell × Cell)),
    List.Pairwise (fun a b => keyOf a ≠ keyOf b) (dedupKeys rows seen) := by
  intro rows
  induction rows with
  | nil => intro seen; simp [dedupKeys]
  | cons x rest ih =>
    intro seen
    unfold dedupKeys
    by_cases hx : keyOf x ∈ seen
    · rw [if_pos hx]
      exact ih seen
    · rw [if_neg hx]
      refine List.Pairwise.cons ?_ (ih _)
      intro b hb heq
      exact dedupKeys_not_seen rest _ b hb (heq ▸ List.mem_cons_self _ _)

theorem outlierFilter_length_le (g : CRow → ℚ) (rows : List CRow) :
    (outlierFilter g rows).length ≤ rows.length := by
  unfold outlierFilter
  split
  · exact List.length_filter_le _ _
  · exact le_refl _

theorem sort_data_length (rows : List CRow) : (sort_data rows).length = rows.length :=
  List.length_mergeSort rows

theorem cleanSteps_length_le (rows : List CRow) :
    (cleanSteps rows).length ≤ rows.length := by
  unfold cleanSteps
  rw [sort_data_length]
  refine le_trans (outlierFilter_length_le _ _) ?_
  refine le_trans (outlierFilter_length_le _ _) ?_
  unfold normalize_dates
  refine le_trans (List.length_filter_le _ _) ?_
  rw [List.length_map, List.length_map]
  unfold handle_missing_values
  rw [List.length_map]
  refine le_trans (List.length_filter_le _ _) ?_
  exact (dedupKeys_sublist rows []).length_le

theorem clean_length_le (rows : List CRow) : (clean rows).length ≤ rows.length := by
  unfold clean
  split
  · simp
  · exact cleanSteps_length_le rows

/-- C3 (amended): cleaning is not idempotent — re-cleaning an already
cleaned table can remove further rows (keys that collide only after
normalization, and fresh 3σ outliers of the recomputed statistics) — but
a second clean never adds rows: its output is no longer than its input's. -/
theorem clean_reclean_length_le (rows : List CRow) :
    (clean (clean rows)).length ≤ (clean rows).length :=
  clean_length_le (clean rows)

/-- C3 counterexample: medication names `"a"` and `"A"` for the same
month survive deduplication (which runs on the raw names before
normalization), are both normalized to `"A"`, and a second `clean` then
drops one of them — `clean (clean X) ≠ clean X`. -/
theorem clean_idempotent_counterexample :
    clean (clean [⟨.s "a", .s "2024-01", .q 1, .q 1⟩, ⟨.s "A", .s "2024-01", .q 1, .q 1⟩]) ≠
      clean [⟨.s "a", .s "2024-01", .q 1, .q 1⟩, ⟨.s "A", .s "2024-01", .q 1, .q 1⟩] := by
  with_unfolding_all decide

theorem mem_of_mem_outlierFilter {g : CRow → ℚ} {rows : List CRow} {r : CRow}
    (h : r ∈ outlierFilter g rows) : r ∈ rows := by
  unfold outlierFilter at h
  split at h
  · exact List.mem_of_mem_filter h
  · exact h

theorem mem_sort_data {rows : List CRow} {r : CRow} : r ∈ sort_data rows ↔ r ∈ rows :=
  (List.mergeSort_perm rows leRow).mem_iff

/-- C5 (amended): every row surviving `clean` carries a `data` token of
the `\d\x7b4\x7d-\d\x7b2\x7d` shape — `format_date` canonicalizes tokens matching one
of the five accepted formats and the shape filter drops the rest without
raising — but the shape check does not validate the month, so an
unparseable token that already has the right shape (such as `"2024-13"`)
is kept unchanged. -/
theorem clean_output_dates_shaped (rows : List CRow) (r : CRow)
    (h : r ∈ clean rows) : matchesYmShape r.data = true := by
  unfold clean at h
  split at h
  · simp at h
  · unfold cleanSteps at h
    have h1 := mem_sort_data.mp h
    have h2 := mem_of_mem_outlierFilter (mem_of_mem_outlierFilter h1)
    unfold normalize_dates at h2
    exact (List.mem_filter.mp h2).2

theorem clean_output_dates_shaped_witness :
    matchesYmShape (CRow.mk (.s "A") (.s "2024-01") (.q 1) (.q 1)).data = true :=
  clean_output_dates_shaped [⟨.s "A", .s "2024-01", .q 1, .q 1⟩]
    ⟨.s "A", .s "2024-01", .q 1, .q 1⟩ (by with_unfolding_all decide)

/-- C5 counterexample: `"2024-13"` matches none of the five accepted
formats (month 13), yet the cleaned output keeps the row with the token
unchanged, because the keep-filter only checks the digits-dash-digits
shape. -/
theorem clean_keeps_unparseable_token :
    tryParseFormats "2024-13" = none ∧
    (clean [⟨.s "A", .s "2024-13", .q 1, .q 1⟩]).map (fun r => r.data) =
      [.s "2024-13"] := by
  with_unfolding_all decide

theorem pairwise_key_map {l : List CRow} {f : CRow → CRow}
    (hf : ∀ r ∈ l, keyOf (f r) = keyOf r)
    (h : List.Pairwise (fun a b => keyOf a ≠ keyOf b) l) :
    List.Pairwise (fun a b => keyOf a ≠ keyOf b) (l.map f) := by
  rw [List.pairwise_map]
  refine h.imp_of_mem ?_
  intro a b ha hb hab
  rw [hf a ha, hf b hb]
  exact hab

theorem outlierFilter_pairwise {R : CRow → CRow → Prop} (g : CRow → ℚ)
    {l : List CRow} (h : List.Pairwise R l) : List.Pairwise R (outlierFilter g l) := by
  unfold outlierFilter
  split
  · exact h.filter _
  · exact h

theorem dedupKeys_keeps_first : ∀ (rows : List CRow) (seen : List (Cell × Cell)) (r : CRow),
    keyOf r ∉ seen →
    rows.find? (fun x => decide (keyOf x = keyOf r)) = some r →
    r ∈ dedupKeys rows seen := by
  intro rows
  induction rows with
  | nil => intro seen r _ hf; simp [List.find?] at hf
  | cons x rest ih =>
    intro seen r hseen hf
    by_cases hx : keyOf x = keyOf r
    · have hxr : x = r := by
        rw [List.find?_cons_of_pos _ (by simp [hx])] at hf
        injection hf
      subst hxr
      unfold dedupKeys
      rw [if_neg hseen]
      exact List.mem_cons_self _ _
    · have hf' : rest.find? (fun y => decide (keyOf y = keyOf r)) = some r := by
        rwa [List.find?_cons_of_neg _ (by simp [hx])] at hf
      unfold dedupKeys
      by_cases hxe : keyOf x ∈ seen
      · rw [if_pos hxe]
        exact ih seen r hseen hf'
      · rw [if_neg hxe]
        refine List.mem_cons_of_mem _ (ih _ r ?_ hf')
        intro hmem
        rcases List.mem_cons.mp hmem with h' | h'
        · exact hx h'.symm
        · exact hseen h'

/-- C4 (amended): deduplication runs on the raw `(medicamento, data)`
values before name/date normalization, keeping the first occurrence of
each raw key; consequently the cleaned output has at most one row per
`(medicamento, data)` pair whenever the input's names and date tokens are
already in normalized form, while distinct raw spellings that normalize
to the same key all survive. -/
theorem clean_unique_normalized_keys (rows : List CRow)
    (hnorm : ∀ r ∈ rows,
      Cell.s ((cellPyStr r.medicamento).trim.toUpper) = r.medicamento ∧
        format_date r.data = r.data) :
    List.Pairwise (fun a b => keyOf a ≠ keyOf b) (clean rows) ∧
    ∀ r ∈ rows, rows.find? (fun x => decide (keyOf x = keyOf r)) = some r →
      r ∈ remove_duplicates rows := by
  constructor
  · unfold clean
    split
    · exact List.Pairwise.nil
    · unfold cleanSteps
      have h1 : List.Pairwise (fun a b => keyOf a ≠ keyOf b) (remove_duplicates rows) :=
        dedupKeys_pairwise rows []
      have h2 : List.Pairwise (fun a b => keyOf a ≠ keyOf b)
          (handle_missing_values (remove_duplicates rows)) := by
        unfold handle_missing_values
        exact pairwise_key_map (fun r _ => rfl) (h1.filter _)
      have hP : ∀ r ∈ handle_missing_values (remove_duplicates rows),
          Cell.s ((cellPyStr r.medicamento).trim.toUpper) = r.medicamento ∧
            format_date r.data = r.data := by
        intro r hr
        unfold handle_missing_values at hr
        obtain ⟨x, hx, rfl⟩ := List.mem_map.mp hr
        have hxrows : x ∈ rows :=
          (dedupKeys_sublist rows []).subset (List.mem_of_mem_filter hx)
        exact hnorm x hxrows
      have h3 : List.Pairwise (fun a b => keyOf a ≠ keyOf b)
          ((handle_missing_values (remove_duplicates rows)).map clean_columns_row) := by
        refine pairwise_key_map (fun r hr => ?_) h2
        show (Cell.s ((cellPyStr r.medicamento).trim.toUpper), r.data) =
          (r.medicamento, r.data)
        rw [(hP r hr).1]
      have hP3 : ∀ r ∈ (handle_missing_values (remove_duplicates rows)).map clean_columns_row,
          format_date r.data = r.data := by
        intro r hr
        obtain ⟨x, hx, rfl⟩ := List.mem_map.mp hr
        exact (hP x hx).2
      have h4 : List.Pairwise (fun a b => keyOf a ≠ keyOf b)
          (normalize_dates ((handle_missing_values (remove_duplicates rows)).map
            clean_columns_row)) := by
        unfold normalize_dates
        refine List.Pairwise.filter _ ?_
        refine pairwise_key_map (fun r hr => ?_) h3
        show (r.medicamento, format_date r.data) = (r.medicamento, r.data)
        rw [hP3 r hr]
      have h5 := outlierFilter_pairwise (fun r => cellQ r.estoque_atual)
        (outlierFilter_pairwise (fun r => cellQ r.consumo) h4)
      unfold sort_data remove_outliers
      exact ((List.mergeSort_perm _ leRow).pairwise_iff
        (fun hxy heq => hxy heq.symm)).mpr h5
  · intro r _ hfind
    exact dedupKeys_keeps_first rows [] r (by simp) hfind

theorem clean_unique_normalized_keys_witness :
    List.Pairwise (fun a b => keyOf a ≠ keyOf b)
      (clean [⟨.s "A", .s "2024-01", .q 1, .q 1⟩, ⟨.s "B", .s "2024-01", .q 2, .q 2⟩]) :=
  (clean_unique_normalized_keys
    [⟨.s "A", .s "2024-01", .q 1, .q 1⟩, ⟨.s "B", .s "2024-01", .q 2, .q 2⟩]
    (by with_unfolding_all decide)).1

/-- C4 counterexample: raw names `"a"` and `"A"` for the same month both
survive `clean` and come out as two rows with the identical normalized
key `("A", "2024-01")` — the output is not unique per normalized
(medication, month) pair. -/
theorem clean_unique_keys_counterexample :
    (clean [⟨.s "a", .s "2024-01", .q 1, .q 1⟩, ⟨.s "A", .s "2024-01", .q 1, .q 1⟩]).map keyOf =
      [(.s "A", .s "2024-01"), (.s "A", .s "2024-01")] ∧
    ¬ List.Pairwise (fun a b => keyOf a ≠ keyOf b)
      (clean [⟨.s "a", .s "2024-01", .q 1, .q 1⟩, ⟨.s "A", .s "2024-01", .q 1, .q 1⟩]) := by
  with_unfolding_all decide

/-- C6 (amended): for every non-empty input frame, `clean` fails before
any transformation iff a required column is missing, but the exception is
a plain `ValueError` (the repository defines no `SchemaError` class) and
its message lists the full required-column list rather than the missing
ones; with all four required columns present it returns normally. -/
theorem cleanChecked_validation (cols : List String) (rows : List CRow)
    (hne : rows ≠ []) :
    ((∃ c ∈ requiredColumns, c ∉ cols) →
      cleanChecked cols rows = .error (.valueError schemaMsg)) ∧
    ((∀ c ∈ requiredColumns, c ∈ cols) →
      cleanChecked cols rows = .ok (cleanSteps rows)) := by
  have hne' : rows.isEmpty = false := by
    cases rows with
    | nil => exact absurd rfl hne
    | cons a l => rfl
  constructor
  · rintro ⟨c, hc, hnc⟩
    have hv : validate_dataframe cols true = false := by
      unfold validate_dataframe
      simp only [Bool.true_and]
      rw [List.all_eq_false]
      refine ⟨c, hc, ?_⟩
      simpa using hnc
    unfold cleanChecked
    rw [hne']
    simp only [Bool.not_false, Bool.false_eq_true, if_false, hv]
  · intro hall
    have hv : validate_dataframe cols true = true := by
      unfold validate_dataframe
      simp only [Bool.true_and]
      rw [List.all_eq_true]
      intro c hc
      simpa using hall c hc
    unfold cleanChecked
    rw [hne']
    simp only [Bool.not_false, Bool.false_eq_true, if_false, hv, if_true]

theorem cleanChecked_validation_witness :
    cleanChecked ["medicamento", "data", "consumo", "estoque_atual"]
        [⟨.s "A", .s "2024-01", .q 1, .q 1⟩] =
      .ok (cleanSteps [⟨.s "A", .s "2024-01", .q 1, .q 1⟩]) :=
  (cleanChecked_validation ["medicamento", "data", "consumo", "estoque_atual"]
    [⟨.s "A", .s "2024-01", .q 1, .q 1⟩] (by simp)).2 (by with_unfolding_all decide)

/-- C6 counterexample: with only `estoque_atual` missing, the cleaner
raises a `ValueError` — no `SchemaError` class exists in the repository —
and the message lists all four required columns (including the present
ones) rather than naming the missing column. -/
theorem cleanChecked_schema_counterexample :
    cleanChecked ["medicamento", "data", "consumo"]
        [⟨.s "A", .s "2024-01", .q 1, .q 1⟩] =
      .error (.valueError
        "DataFrame inválido. Colunas necessárias: ['medicamento', 'data', 'consumo', 'estoque_atual']") ∧
    "estoque_atual" ∉ ["medicamento", "data", "consumo"] ∧
    "medicamento" ∈ ["medicamento", "data", "consumo"] := by
  refine ⟨?_, by decide, by decide⟩
  with_unfolding_all decide

/-! ## Recursive forecasting (`src/models/predict.py`)

`predict_future` filters one medication's history, takes the latest month
token, and iterates `i = 1..n_months`, emitting one record per step whose
month is `strftime("%Y-%m")` of `last_date + timedelta(days=30 * i)`. The
regression model and the feature pipeline feeding it live outside the
repository core (an sklearn estimator), so the prediction at step `i` is
abstracted as a function `model : ℕ → ℚ`; every statement below holds for
every such model. -/

/-- Proleptic Gregorian calendar date, as `datetime.date`. -/
structure Date where
  year : ℕ
  month : ℕ
  day : ℕ
deriving DecidableEq, Repr

/-- Successor day in the Gregorian calendar. -/
def nextDay (d : Date) : Date :=
  if d.day < daysInMonth d.year d.month then ⟨d.year, d.month, d.day + 1⟩
  else if d.month < 12 then ⟨d.year, d.month + 1, 1⟩
  else ⟨d.year + 1, 1, 1⟩

/-- `d + timedelta(days=n)`. -/
def addDays : Date → ℕ → Date
  | d, 0 => d
  | d, n + 1 => addDays (nextDay d) n

/-- One forecast record: `{medicamento, data, consumo_previsto, tipo}`. -/
structure PredRow where
  medicamento : String
  data : String
  consumo_previsto : ℚ
  tipo : String
deriving DecidableEq, Repr

/-- Month token of forecast step `i`:
`(last_date + timedelta(days=30*i)).strftime("%Y-%m")`. -/
def forecastMonthToken (last : Date) (i : ℕ) : String :=
  fmtYm (addDays last (30 * i)).year (addDays last (30 * i)).month

/-- Record emitted at step `i`: predicted value clamped at 0
(`max(0, pred[0])`) and rounded (`round(pred_value, 0)`), with
`tipo = "predição"`. -/
def mkPred (model : ℕ → ℚ) (med : String) (last : Date) (i : ℕ) : PredRow :=
  { medicamento := med
    data := forecastMonthToken last i
    consumo_previsto := pyRound0 (max 0 (model i))
    tipo := "predição" }

/-- The `for i in range(1, n_months + 1)` loop: `i` is the current step,
the second argument the remaining step count. -/
def predictLoop (model : ℕ → ℚ) (med : String) (last : Date) : ℕ → ℕ → List PredRow
  | _, 0 => []
  | i, k + 1 => mkPred model med last i :: predictLoop model med last (i + 1) k

/-- `ConsumptionPredictor.predict_future` for one medication, over its
(already filtered) list of month tokens: empty history returns an empty
frame; otherwise the latest token (the maximum after `sort_values`) plus
`"-01"` goes through `pd.to_datetime`, which raises on an invalid month. -/
def predict_future (model : ℕ → ℚ) (med : String) (hist : List String)
    (n_months : ℕ) : Except String (List PredRow) :=
  if hist.isEmpty then .ok []
  else
    match parseYmSep "-" (((hist.mergeSort (fun a b => decide (a ≤ b))).getLast?).getD "") with
    | none => .error "to_datetime"
    | some (y, m) => .ok (predictLoop model med ⟨y, m, 1⟩ 1 n_months)

theorem pyRound0_nonneg {x : ℚ} (h : 0 ≤ x) : 0 ≤ pyRound0 x := by
  unfold pyRound0
  have h0 : (0 : ℤ) ≤ ⌊x⌋ := Int.floor_nonneg.mpr h
  have : (0 : ℤ) ≤ rhe x := by
    rcases rhe_int_cases x with h' | h' <;> omega
  exact_mod_cast this

theorem predictLoop_eq (model : ℕ → ℚ) (med : String) (last : Date) :
    ∀ (k i : ℕ), predictLoop model med last i k =
      (List.range k).map (fun j => mkPred model med last (i + j)) := by
  intro k
  induction k with
  | zero => intro i; rfl
  | succ k ih =>
    intro i
    rw [List.range_succ_eq_map, List.map_cons, List.map_map]
    show mkPred model med last i :: predictLoop model med last (i + 1) k = _
    congr 1
    rw [ih (i + 1)]
    refine List.map_congr_left ?_
    intro j _
    show mkPred model med last (i + 1 + j) = mkPred model med last (i + Nat.succ j)
    rw [show i + 1 + j = i + Nat.succ j by omega]

/-- C2 (amended): for every medication with a non-empty history whose
latest token parses as a calendar month, and every horizon `n`,
`predict_future` emits exactly `n` records, the record of step `i`
carrying `{medicamento, data = strftime of last month's first day +
30·i days, consumo_previsto = round(max(0, model i)) ≥ 0,
tipo = "predição"}`; the 30-day stepping means the emitted month tokens
may repeat, skip months, or coincide with the last historical month. -/
theorem predict_future_horizon (model : ℕ → ℚ) (med : String)
    (hist : List String) (n y m : ℕ) (hne : hist ≠ [])
    (hparse : parseYmSep "-"
      (((hist.mergeSort (fun a b => decide (a ≤ b))).getLast?).getD "") = some (y, m)) :
    predict_future model med hist n =
      .ok ((List.range n).map (fun j => mkPred model med ⟨y, m, 1⟩ (j + 1))) ∧
    ∀ j : ℕ, 0 ≤ (mkPred model med ⟨y, m, 1⟩ (j + 1)).consumo_previsto := by
  constructor
  · have hmap : predictLoop model med ⟨y, m, 1⟩ 1 n =
        (List.range n).map (fun j => mkPred model med ⟨y, m, 1⟩ (j + 1)) := by
      rw [predictLoop_eq]
      refine List.map_congr_left ?_
      intro j _
      show mkPred model med ⟨y, m, 1⟩ (1 + j) = mkPred model med ⟨y, m, 1⟩ (j + 1)
      rw [Nat.add_comm 1 j]
    have hne' : hist.isEmpty = false := by
      cases hist with
      | nil => exact absurd rfl hne
      | cons a l => rfl
    unfold predict_future
    rw [hne', hparse]
    simp only [Bool.false_eq_true, if_false]
    rw [hmap]
  · intro j
    exact pyRound0_nonneg (le_max_left _ _)

set_option maxRecDepth 10000 in
theorem predict_future_horizon_witness :
    predict_future (fun i => (i : ℚ)) "MED" ["2024-01"] 2 =
      .ok ((List.range 2).map (fun j =>
        mkPred (fun i => (i : ℚ)) "MED" ⟨2024, 1, 1⟩ (j + 1))) :=
  (predict_future_horizon (fun i => (i : ℚ)) "MED" ["2024-01"] 2 2024 1
    (by simp) (by with_unfolding_all decide)).1

set_option maxRecDepth 10000 in
/-- C2 counterexample: with the last historical month `"2024-01"` and
horizon 3, the 30-day stepping emits month tokens
`["2024-01", "2024-03", "2024-03"]`: the first equals the last historical
month (not strictly after it), `"2024-02"` is skipped, and two tokens
coincide — the months are neither pairwise distinct nor consecutive. -/
theorem predict_future_months_counterexample :
    predict_future (fun _ => 0) "MED" ["2024-01"] 3 =
      .ok [⟨"MED", "2024-01", 0, "predição"⟩, ⟨"MED", "2024-03", 0, "predição"⟩,
        ⟨"MED", "2024-03", 0, "predição"⟩] ∧
    ¬ List.Pairwise (fun a b => a ≠ b)
      (["2024-01", "2024-03", "2024-03"] : List String) := by
  refine ⟨?_, by decide⟩
  with_unfolding_all decide

/-! ## Model persistence (`src/models/train.py`)

`save_model` pickles the dictionary
`{"model": ..., "feature_names": ..., "metrics": ...}`; `load_model`
unpickles it and assigns all three entries back. The fitted regressor is
an external sklearn object, abstracted as its prediction function;
pickling fidelity of the external library is assumed, so the blob is the
dictionary itself. -/

/-- Fitted regressor abstracted by what `predict` uses: a function from a
feature row to the predicted value. -/
def RegModel : Type := List (String × ℚ) → ℚ

/-- `MedicationPredictor` state: fitted model, feature-name schema,
training metrics. -/
structure MPredictor where
  model : RegModel
  feature_names : List String
  metrics : List (String × ℚ)

/-- The pickled dictionary written by `save_model`. -/
structure ModelBlob where
  model : RegModel
  feature_names : List String
  metrics : List (String × ℚ)

/-- `save_model`: serialize the three fields as one unit. -/
def save_model (p : MPredictor) : ModelBlob :=
  { model := p.model, feature_names := p.feature_names, metrics := p.metrics }

/-- `load_model`: assign all three entries of the blob onto the
predictor. -/
def load_model (p : MPredictor) (blob : ModelBlob) : MPredictor :=
  { p with model := blob.model, feature_names := blob.feature_names,
           metrics := blob.metrics }

/-- Column value of a feature row under reindexing: a column the schema
requires but the row lacks becomes `NaN` and is zero-filled by
`fillna(0)`. -/
def lookupQ (row : List (String × ℚ)) (n : String) : ℚ :=
  ((row.find? (fun p => p.1 == n)).map Prod.snd).getD 0

/-- `MedicationPredictor.predict`: select/reorder the stored feature
schema (when non-empty), sanitize, predict, clamp at zero. -/
def MPredictor.predict (p : MPredictor) (X : List (List (String × ℚ))) : List ℚ :=
  X.map (fun row =>
    max 0 (p.model (if p.feature_names.isEmpty then row
      else p.feature_names.map (fun n => (n, lookupQ row n)))))

/-- C9: saving a trained predictor and loading the blob into a fresh
predictor restores the fitted model, the feature-name schema and the
metrics, hence the loaded predictor predicts identically on every
input. -/
theorem save_load_roundtrip (p fresh : MPredictor) (X : List (List (String × ℚ))) :
    (load_model fresh (save_model p)).model = p.model ∧
    (load_model fresh (save_model p)).feature_names = p.feature_names ∧
    (load_model fresh (save_model p)).metrics = p.metrics ∧
    (load_model fresh (save_model p)).predict X = p.predict X :=
  ⟨rfl, rfl, rfl, rfl⟩
